import Mathlib

/-!
Shallow embedding of the AI-Powered Financial Data Assistant core
(src/services/embeddingService.py, src/services/vectorSearchService.py,
src/services/summarizerService.py, src/api/routes/search.py) and proofs
about the frozen claims.

Modelling conventions:
* Python values that appear in transaction records and filters are modelled by
  the inductive `Value` (strings, ints, floats, None).  Machine floats are
  modelled as exact rationals; the only float operations the claims touch are
  order comparisons, addition and division, for which the rational model is
  order- and value-faithful on the inputs used.
* Python dicts are modelled as insertion-ordered association lists.  Mutation
  is made explicit: a function that mutates a dict or a list of dicts returns
  the post-call value of that dict or list alongside its result, and a
  statement such as `t["amount"] = v` on a local copy shows up as a `dictSet`
  applied to the local value only.
* Code that can raise returns `Except PyErr`.  Exception classes are collapsed
  to the `PyErr` tags actually distinguished by the source.
-/

/-- Exception kinds raised by the modelled code. -/
inductive PyErr where
  | valueError
  | typeError
  | attributeError
  | indexError
  | fileNotFound
  | validationError
  deriving DecidableEq, Repr

/-- Python values stored in transaction records and filter dicts.
Floats are modelled as exact rationals. -/
inductive Value where
  | strV : String → Value
  | intV : Int → Value
  | floatV : ℚ → Value
  | noneV : Value
  deriving DecidableEq, Repr

/-- A Python dict with string keys, as an insertion-ordered association list. -/
abbrev Dict := List (String × Value)

/-- `d.get(k, default)`. -/
def dictGet (d : Dict) (k : String) (default : Value) : Value :=
  match d.find? (fun p => p.1 == k) with
  | some p => p.2
  | none => default

/-- `k in d` lookup without a default: `some v` when the key is present. -/
def dictGetOpt (d : Dict) (k : String) : Option Value :=
  (d.find? (fun p => p.1 == k)).map Prod.snd

/-- `d[k] = v`: update in place when the key exists (keeping its position),
append otherwise — Python dicts preserve insertion order. -/
def dictSet (d : Dict) (k : String) (v : Value) : Dict :=
  if d.any (fun p => p.1 == k) then
    d.map (fun p => if p.1 == k then (k, v) else p)
  else d ++ [(k, v)]

/-- Python truthiness of a `Value` (empty string, zero and None are falsy). -/
def isTruthy : Value → Bool
  | Value.strV s => s ≠ ""
  | Value.intV n => n ≠ 0
  | Value.floatV q => q ≠ 0
  | Value.noneV => false

/-- `str()` of a float.  Python prints the shortest round-tripping decimal;
the claims never inspect the rendering of a non-integral float, so only the
integral case is rendered faithfully ("5.0"). -/
def pyFloatStr (q : ℚ) : String :=
  if q.den = 1 then toString q.num ++ ".0" else toString q.num ++ "/" ++ toString q.den

/-- `str()` of a `Value`, as used inside f-strings. -/
def pyStr : Value → String
  | Value.strV s => s
  | Value.intV n => toString n
  | Value.floatV q => pyFloatStr q
  | Value.noneV => "None"

/-- Numeric view of a `Value`; `none` for non-numbers. -/
def toQ : Value → Option ℚ
  | Value.intV n => some (n : ℚ)
  | Value.floatV q => some q
  | _ => none

/-- Numeric view with junk value 0 for non-numbers; used only where the
source guarantees the value is a number (amounts after float coercion). -/
def qOf (v : Value) : ℚ := (toQ v).getD 0

/-- Python `==` on values: never raises; ints and floats compare by value,
values of unrelated types compare unequal. -/
def pyEq : Value → Value → Bool
  | Value.strV a, Value.strV b => a == b
  | Value.intV a, Value.intV b => a == b
  | Value.intV a, Value.floatV b => (a : ℚ) == b
  | Value.floatV a, Value.intV b => a == (b : ℚ)
  | Value.floatV a, Value.floatV b => a == b
  | Value.noneV, Value.noneV => true
  | _, _ => false

/-- Python `<` on values: numbers compare by value, strings lexicographically,
anything else raises TypeError. -/
def pyLt : Value → Value → Except PyErr Bool
  | Value.intV a, Value.intV b => .ok (decide (a < b))
  | Value.intV a, Value.floatV b => .ok (decide ((a : ℚ) < b))
  | Value.floatV a, Value.intV b => .ok (decide (a < (b : ℚ)))
  | Value.floatV a, Value.floatV b => .ok (decide (a < b))
  | Value.strV a, Value.strV b => .ok (decide (a < b))
  | _, _ => .error PyErr.typeError

/-- Parse the significand digits of a simple decimal literal. -/
def decDigits : List Char → Option ℕ
  | [] => none
  | cs => cs.foldl (fun acc c => match acc with
      | none => none
      | some n => if c.isDigit then some (n * 10 + (c.toNat - 48)) else none)
      (some 0)

/-- `float(s)` on a simple decimal literal `[-]digits[.digits]`; other string
shapes (exponents, inf/nan, whitespace) are not needed by any claim and are
modelled as the same ValueError Python raises for unparseable strings. -/
def parseFloatLit (s : String) : Option ℚ :=
  let (sign, body) :=
    match s.toList with
    | '-' :: rest => ((-1 : ℚ), rest)
    | cs => ((1 : ℚ), cs)
  match body.splitOn '.' with
  | [ip] => (decDigits ip).map (fun n => sign * n)
  | [ip, fp] =>
      match decDigits ip, decDigits fp with
      | some i, some f => some (sign * ((i : ℚ) + (f : ℚ) / ((10 : ℚ) ^ fp.length)))
      | _, _ => none
  | _ => none

/-- `float(v)`: ints and floats convert exactly, numeric strings parse,
everything else raises (TypeError for None, ValueError for bad strings). -/
def pyFloat : Value → Except PyErr ℚ
  | Value.intV n => .ok (n : ℚ)
  | Value.floatV q => .ok q
  | Value.strV s =>
      match parseFloatLit s with
      | some q => .ok q
      | none => .error PyErr.valueError
  | Value.noneV => .error PyErr.typeError

/-- Python substring test `needle in hay` on strings. -/
def pyIn (needle hay : String) : Bool :=
  decide (needle.toList <:+: hay.toList)

/-- src/services/embeddingService.py, `create_embedding_text` (lines 35-78).
For a dict argument the try body cannot raise, so the function is total on
`Dict`; the except-branch fallback `"Transaction {id-or-unknown}"` is only
reachable for non-dict input, which the `Dict` type excludes. -/
def create_embedding_text (transaction : Dict) : String :=
  let txn_type := dictGet transaction "type" (Value.strV "Unknown")
  let amount := dictGet transaction "amount" (Value.intV 0)
  let date := dictGet transaction "date" (Value.strV "Unknown")
  let description := dictGet transaction "description" (Value.strV "Unknown")
  let category := dictGet transaction "category" (Value.strV "Others")
  let method := dictGet transaction "method" (Value.strV "")
  let user_id := dictGet transaction "userId" (Value.strV "")
  let parts := [pyStr txn_type ++ " of ₹" ++ pyStr amount,
                "on " ++ pyStr date,
                "for " ++ pyStr description,
                "under " ++ pyStr category ++ " category"]
  let parts := if isTruthy method then parts ++ ["via " ++ pyStr method] else parts
  let parts := if isTruthy user_id then parts ++ ["user " ++ pyStr user_id] else parts
  String.intercalate " " parts ++ "."

/-- The embedding backend: a fixed dimension and the underlying
sentence-transformer model, abstracted as a text-to-vector function
(src/services/embeddingService.py `EmbeddingService.__init__`). -/
structure EmbeddingService where
  dimension : ℕ
  encode : String → List ℚ

/-- src/services/embeddingService.py, `generate_embeddings` (lines 93-143).
The batching loop concatenates per-batch outputs in order and checks each
batch's column count against `dimension`; with the backend modelled per text
this is a map with a per-row dimension check (numpy arrays are rectangular,
so the per-batch shape check is equivalent to checking every row).
The empty input returns the 0-by-dimension matrix, i.e. the empty list. -/
def generate_embeddings (svc : EmbeddingService) (transactions : List Dict) :
    Except PyErr (List (List ℚ)) :=
  if transactions.isEmpty then .ok []
  else
    let texts := transactions.map create_embedding_text
    let embs := texts.map svc.encode
    if embs.all (fun e => e.length == svc.dimension) then .ok embs
    else .error PyErr.valueError

/-- src/services/embeddingService.py, `generate_query_embedding`
(lines 145-167): encode one string, fail with ValueError when the resulting
dimension differs from the configured one. -/
def generate_query_embedding (svc : EmbeddingService) (query : String) :
    Except PyErr (List ℚ) :=
  let emb := svc.encode query
  if emb.length == svc.dimension then .ok emb else .error PyErr.valueError

/-- A FAISS `IndexFlatIP`: the configured dimension and the stored vectors
in insertion order (`ntotal` is the list length). -/
structure FaissIndex where
  dim : ℕ
  vectors : List (List ℚ)
  deriving DecidableEq, Repr

/-- Inner product of two vectors. -/
def dotQ (a b : List ℚ) : ℚ := (List.zipWith (fun x y => x * y) a b).sum

/-- Insert into a score-descending list; on equal scores the lower stored
index comes first (FAISS exact search is deterministic this way). -/
def insertDesc (x : ℚ × ℕ) : List (ℚ × ℕ) → List (ℚ × ℕ)
  | [] => [x]
  | y :: ys =>
      if x.1 > y.1 ∨ (x.1 = y.1 ∧ x.2 < y.2) then x :: y :: ys
      else y :: insertDesc x ys

/-- Sort score-index pairs descending by score, ties by ascending index. -/
def sortDesc (l : List (ℚ × ℕ)) : List (ℚ × ℕ) := l.foldr insertDesc []

/-- `index.search(q, k)` on an `IndexFlatIP`: score every stored vector by
inner product with the query and return the best `min(k, ntotal)` pairs
(score, stored position), best first.  The padding FAISS emits when
`k > ntotal` (index -1, sentinel score) is not modelled: the one call site
requests `min(top_k * 3, len(transactions))`, which never exceeds `ntotal`
in the consistent states the search claims quantify over. -/
def faiss_search (idx : FaissIndex) (q : List ℚ) (k : ℕ) : List (ℚ × ℕ) :=
  (sortDesc ((idx.vectors.enum).map (fun p => (dotQ q p.2, p.1)))).take k

/-- Mutable state of a `VectorSearchService`
(src/services/vectorSearchService.py `__init__`, lines 10-21):
the FAISS index (None before the first build/load), the parallel
transaction list, and the ready flag. -/
structure VSState where
  index : Option FaissIndex
  transactions : List Dict
  is_loaded : Bool
  deriving DecidableEq, Repr

/-- The state `__init__` leaves behind. -/
def initVSState : VSState := { index := none, transactions := [], is_loaded := false }

/-- `index.ntotal if self.index else 0`, as in `get_index_info` (line 156). -/
def ntotalOf (st : VSState) : ℕ :=
  match st.index with
  | some idx => idx.vectors.length
  | none => 0

/-- src/services/vectorSearchService.py, `build_index` (lines 23-46).
`self.transactions = transactions` happens on line 25, before the try
block, so it survives any later failure.  The embedding-count check
mirrors line 34.  `IndexFlatIP(dimension)` followed by `add` is collapsed
into one step: `generate_embeddings` has already checked every row against
`dimension`, so the `add` cannot fail in the model. -/
def build_index (svc : EmbeddingService) (st : VSState) (transactions : List Dict) :
    Except PyErr Unit × VSState :=
  let st1 : VSState := { st with transactions := transactions }
  match generate_embeddings svc transactions with
  | .error e => (.error e, st1)
  | .ok embs =>
      if embs.length ≠ transactions.length then (.error PyErr.valueError, st1)
      else
        let st2 : VSState :=
          { st1 with index := some { dim := svc.dimension, vectors := embs } }
        (.ok (), { st2 with is_loaded := true })

/-- The two persisted artifacts, parsed: the binary FAISS file and the JSON
sidecar `{transactions, count}`.  `none` means the file is absent; corrupt
files (whose read-failure cleanup deletes both artifacts) are not modelled,
as no claim quantifies over them. -/
structure FS where
  index_file : Option FaissIndex
  metadata_file : Option (List Dict × ℕ)
  deriving DecidableEq, Repr

/-- src/services/vectorSearchService.py, `save_index` (lines 48-69):
requires a built index, then writes the index and the
`{transactions, count}` sidecar together. -/
def save_index (st : VSState) (fs : FS) : Except PyErr Unit × FS :=
  match st.index with
  | none => (.error PyErr.valueError, fs)
  | some idx =>
      (.ok (), { index_file := some idx,
                 metadata_file := some (st.transactions, st.transactions.length) })

/-- src/services/vectorSearchService.py, `load_index` (lines 71-99):
FileNotFoundError when the index artifact is absent; otherwise the index is
read, the transactions are replaced only when the metadata sidecar exists
(lines 81-84), and the ready flag is set. -/
def load_index (fs : FS) (st : VSState) : Except PyErr Unit × VSState :=
  match fs.index_file with
  | none => (.error PyErr.fileNotFound, st)
  | some idx =>
      let st1 : VSState := { st with index := some idx }
      let st2 : VSState :=
        match fs.metadata_file with
        | some meta => { st1 with transactions := meta.1 }
        | none => st1
      (.ok (), { st2 with is_loaded := true })

/-- One key-value pair of the filter dict, run through the elif chain of
`_passes_filters` (lines 133-147): `ok false` means the chain returned
False for this pair, `ok true` means this pair imposes no rejection. -/
def filterPair (t : Dict) (k : String) (v : Value) : Except PyErr Bool :=
  if k = "min_amount" then
    match pyLt (dictGet t "amount" (Value.intV 0)) v with
    | .error e => .error e
    | .ok b => .ok (!b)
  else if k = "max_amount" then
    match pyLt v (dictGet t "amount" (Value.intV 0)) with
    | .error e => .error e
    | .ok b => .ok (!b)
  else if k = "type" then
    .ok (pyEq (dictGet t "type" Value.noneV) v)
  else if k = "category" then
    .ok (pyEq (dictGet t "category" Value.noneV) v)
  else if k = "user_id" then
    .ok (pyEq (dictGet t "userId" Value.noneV) v)
  else if k = "month" then
    match dictGet t "date" (Value.strV "") with
    | Value.strV d =>
        match v with
        | Value.strV s => .ok (d.startsWith s)
        | _ => .error PyErr.typeError
    | _ => .error PyErr.attributeError
  else if k = "description_contains" then
    match v with
    | Value.strV s =>
        match dictGet t "description" (Value.strV "") with
        | Value.strV d => .ok (pyIn s.toLower d.toLower)
        | _ => .error PyErr.attributeError
    | _ => .error PyErr.attributeError
  else .ok true

/-- The `for key, value in filters.items()` loop of `_passes_filters`:
returns False at the first rejecting pair, True when none rejects. -/
def filtersLoop (t : Dict) : List (String × Value) → Except PyErr Bool
  | [] => .ok true
  | (k, v) :: rest =>
      match filterPair t k v with
      | .error e => .error e
      | .ok false => .ok false
      | .ok true => filtersLoop t rest

/-- src/services/vectorSearchService.py, `_passes_filters` (lines 128-149).
`if not filters` covers both `None` and the empty dict. -/
def _passes_filters (t : Dict) (filters : Option Dict) : Except PyErr Bool :=
  match filters with
  | none => .ok true
  | some f => if f.isEmpty then .ok true else filtersLoop t f

/-- The result-collection loop of `semantic_search` (lines 113-124):
walk the candidate (score, index) pairs, skip out-of-range indices, filter,
append a copy of the stored record with `similarity_score` attached, and
break once `top_k` results are collected. -/
def searchLoop (transactions : List Dict) (filters : Option Dict) (top_k : ℕ) :
    List (ℚ × ℕ) → List Dict → Except PyErr (List Dict)
  | [], results => .ok results
  | (score, idx) :: rest, results =>
      if h : idx < transactions.length then
        let txn := transactions.get ⟨idx, h⟩
        match _passes_filters txn filters with
        | .error e => .error e
        | .ok pass =>
            let results' :=
              if pass then
                results ++ [dictSet txn "similarity_score" (Value.floatV score)]
              else results
            if top_k ≤ results'.length then .ok results'
            else searchLoop transactions filters top_k rest results'
      else searchLoop transactions filters top_k rest results

/-- src/services/vectorSearchService.py, `semantic_search` (lines 101-126).
`transaction = self.transactions[idx].copy()` means the later
`similarity_score` write lands on a fresh dict, so the post-call service
state — returned as the second component — is the input state on every
path. -/
def semantic_search (svc : EmbeddingService) (st : VSState) (query : String)
    (top_k : ℕ) (filters : Option Dict) : Except PyErr (List Dict) × VSState :=
  match st.index, st.is_loaded with
  | none, _ => (.error PyErr.valueError, st)
  | some _, false => (.error PyErr.valueError, st)
  | some idx, true =>
      match generate_query_embedding svc query with
      | .error e => (.error e, st)
      | .ok qe =>
          let candidates := faiss_search idx qe (min (top_k * 3) st.transactions.length)
          match searchLoop st.transactions filters top_k candidates [] with
          | .error e => (.error e, st)
          | .ok results => (.ok results, st)

/-- FastAPI parameter validation for `GET /search`, from the declarations in
src/api/routes/search.py lines 16-17: `query` has min_length 1 and
max_length 200, `top_k` defaults to 5 with bounds ge 1, le 200.  The
framework rejects a violating request with a validation error before the
handler body runs; this function models that check. -/
def validate_search_params (query : String) (top_k : Option ℤ) :
    Except PyErr (String × ℤ) :=
  if query.length < 1 ∨ 200 < query.length then .error PyErr.validationError
  else
    match top_k with
    | none => .ok (query, 5)
    | some k =>
        if k < 1 ∨ 200 < k then .error PyErr.validationError
        else .ok (query, k)

/-- Round to the nearest integer, ties to even — the rounding Python's
`round` and fixed-point string formatting use. -/
def roundHalfEven (q : ℚ) : ℤ :=
  let f := Rat.floor q
  let r := q - (f : ℚ)
  if r < 1 / 2 then f
  else if 1 / 2 < r then f + 1
  else if f % 2 = 0 then f else f + 1

/-- Python `round(x, 2)`. -/
def round2 (q : ℚ) : ℚ := (roundHalfEven (q * 100) : ℚ) / 100

/-- Left-pad a digit string with zeros to the given width. -/
def padZeros (width : ℕ) (s : String) : String :=
  if s.length < width then String.mk (List.replicate (width - s.length) '0') ++ s
  else s

/-- Fixed-point formatting `{x:.d f}` with `d` fractional digits,
rounding half to even. -/
def fmtFixed (d : ℕ) (q : ℚ) : String :=
  let scaled := roundHalfEven (q * ((10 : ℚ) ^ d))
  let sign := if scaled < 0 then "-" else ""
  let n := scaled.natAbs
  sign ++ toString (n / 10 ^ d) ++ "." ++ padZeros d (toString (n % 10 ^ d))

/-- Days in a month of the proleptic Gregorian calendar. -/
def daysInMonth (year month : ℕ) : ℕ :=
  if month = 2 then
    if year % 4 = 0 ∧ (year % 100 ≠ 0 ∨ year % 400 = 0) then 29 else 28
  else if month = 4 ∨ month = 6 ∨ month = 9 ∨ month = 11 then 30
  else 31

/-- Numeric value of four digit characters. -/
def fourDigits (a b c d : Char) : ℕ :=
  (a.toNat - 48) * 1000 + (b.toNat - 48) * 100 + (c.toNat - 48) * 10 + (d.toNat - 48)

/-- Modelled from the Python standard library: `datetime.fromisoformat` on a
plain ISO date `YYYY-MM-DD`, returning `(year, month)` — the only two fields
the caller reads.  Variants with a time component and the wider grammars of
newer Python versions are not modelled; no claim depends on them.  What the
claims do depend on is that malformed dates such as "2024-13" are rejected
(a ValueError in every Python version, `none` here). -/
def fromisoformat (s : String) : Option (ℕ × ℕ) :=
  match s.toList with
  | [y1, y2, y3, y4, s1, m1, m2, s2, d1, d2] =>
      if s1 = '-' ∧ s2 = '-' ∧
         y1.isDigit ∧ y2.isDigit ∧ y3.isDigit ∧ y4.isDigit ∧
         m1.isDigit ∧ m2.isDigit ∧ d1.isDigit ∧ d2.isDigit then
        let y := fourDigits y1 y2 y3 y4
        let mo := (m1.toNat - 48) * 10 + (m2.toNat - 48)
        let da := (d1.toNat - 48) * 10 + (d2.toNat - 48)
        if 1 ≤ mo ∧ mo ≤ 12 ∧ 1 ≤ da ∧ da ≤ daysInMonth y mo ∧ 1 ≤ y then
          some (y, mo)
        else none
      else none
  | _ => none

/-- `s[i]`: Python indexing raises IndexError out of bounds. -/
def strIndex (s : String) (i : ℕ) : Except PyErr Char :=
  match s.toList.get? i with
  | some c => .ok c
  | none => .error PyErr.indexError

/-- src/services/summarizerService.py, `_safe_year_month` (lines 155-171).
The guard `not date_str or not isinstance(date_str, str)` sends every falsy
or non-string value to "unknown".  In the fallback branch the conjunction
`len(date_str) >= 7 and date_str[4] == '-' and date_str[7] in ['-','T',' ']`
short-circuits left to right; `date_str[4]` is safe under the length guard,
but `date_str[7]` is evaluated for every 7-character string that survives
the first two conjuncts — and raises IndexError there. -/
def _safe_year_month (date_str : Value) : Except PyErr String :=
  match date_str with
  | Value.strV s =>
      if s = "" then .ok "unknown"
      else
        match fromisoformat s with
        | some (y, mo) => .ok (padZeros 4 (toString y) ++ "-" ++ padZeros 2 (toString mo))
        | none =>
            if 7 ≤ s.length then
              if s.toList.getD 4 ' ' = '-' then
                match strIndex s 7 with
                | .error e => .error e
                | .ok c =>
                    if c = '-' ∨ c = 'T' ∨ c = ' ' then .ok (s.take 7)
                    else .ok "unknown"
              else .ok "unknown"
            else .ok "unknown"
  | _ => .ok "unknown"

/-- The in-place amount coercion loop of `summarize_results` (lines 80-81):
`t['amount'] = float(t.get('amount', 0))` for each record, stopping at the
first record whose amount does not coerce.  Returns the loop's outcome and
the post-loop contents of the list — on failure the already-visited prefix
is mutated, the failing record and the rest are untouched. -/
def coerceAmounts : List Dict → Except PyErr Unit × List Dict
  | [] => (.ok (), [])
  | t :: ts =>
      match pyFloat (dictGet t "amount" (Value.intV 0)) with
      | .error e => (.error e, t :: ts)
      | .ok q =>
          let t' := dictSet t "amount" (Value.floatV q)
          match coerceAmounts ts with
          | (.error e, ts') => (.error e, t' :: ts')
          | (.ok _, ts') => (.ok (), t' :: ts')

/-- `txn['amount']` read back after the coercion loop (always a float there). -/
def amountQ (t : Dict) : ℚ := qOf (dictGet t "amount" (Value.intV 0))

/-- `txn.get('category', 'Others') or 'Others'` (line 89). -/
def catKey (t : Dict) : Value :=
  let c := dictGet t "category" (Value.strV "Others")
  if isTruthy c then c else Value.strV "Others"

/-- `d[k] = d.get(k, 0.0) + amt` on a Value-keyed, insertion-ordered dict. -/
def addAmountV (l : List (Value × ℚ)) (k : Value) (amt : ℚ) : List (Value × ℚ) :=
  if l.any (fun p => p.1 == k) then
    l.map (fun p => if p.1 == k then (p.1, p.2 + amt) else p)
  else l ++ [(k, amt)]

/-- `d[k] = d.get(k, 0.0) + amt` on a string-keyed, insertion-ordered dict. -/
def addAmountS (l : List (String × ℚ)) (k : String) (amt : ℚ) : List (String × ℚ) :=
  if l.any (fun p => p.1 == k) then
    l.map (fun p => if p.1 == k then (p.1, p.2 + amt) else p)
  else l ++ [(k, amt)]

/-- Stable descending insertion by summed amount: a new item goes after all
items with a greater-or-equal amount, matching Python's stable
`sorted(..., key=lambda x: x[1], reverse=True)`. -/
def insertCatDesc (x : Value × ℚ) : List (Value × ℚ) → List (Value × ℚ)
  | [] => [x]
  | y :: ys => if x.2 ≤ y.2 then y :: insertCatDesc x ys else x :: y :: ys

/-- `sorted(categories.items(), key=lambda x: x[1], reverse=True)` (line 93). -/
def sortCatsDesc (l : List (Value × ℚ)) : List (Value × ℚ) :=
  l.foldl (fun acc x => insertCatDesc x acc) []

/-- Python `max(iterable, key=...)`: the first element attaining the maximum
key, `none` on the empty iterable. -/
def pyMax {α β : Type} [LinearOrder β] (l : List α) (key : α → β) : Option α :=
  match l with
  | [] => none
  | x :: xs => some (xs.foldl (fun best y => if key best < key y then y else best) x)

/-- The monthly-summary loop of `summarize_results` (lines 97-101):
bucket each record's amount under `_safe_year_month(date)`, propagating the
IndexError `_safe_year_month` can raise. -/
def monthlyLoop (acc : List (String × ℚ)) :
    List Dict → Except PyErr (List (String × ℚ))
  | [] => .ok acc
  | t :: ts =>
      match _safe_year_month (dictGet t "date" (Value.strV "")) with
      | .error e => .error e
      | .ok ym => monthlyLoop (addAmountS acc ym (amountQ t)) ts

/-- `(t.get('description') or '').lower()` (line 143): falsy values become
the empty string; a truthy non-string raises AttributeError. -/
def lowerDescOf (t : Dict) : Except PyErr String :=
  let v := dictGet t "description" Value.noneV
  if isTruthy v then
    match v with
    | Value.strV s => .ok s.toLower
    | _ => .error PyErr.attributeError
  else .ok ""

/-- `counts[m] = counts.get(m, 0) + 1` on an insertion-ordered dict. -/
def bumpCount (l : List (String × ℕ)) (k : String) : List (String × ℕ) :=
  if l.any (fun p => p.1 == k) then
    l.map (fun p => if p.1 == k then (p.1, p.2 + 1) else p)
  else l ++ [(k, 1)]

/-- The merchant-count loop of `_generate_insights` (lines 141-144). -/
def merchantLoop (acc : List (String × ℕ)) :
    List Dict → Except PyErr (List (String × ℕ))
  | [] => .ok acc
  | t :: ts =>
      match lowerDescOf t with
      | .error e => .error e
      | .ok m => merchantLoop (bumpCount acc m) ts

/-- src/services/summarizerService.py, `_generate_insights` (lines 121-153),
called with the float-coerced records.  The four insight families are
appended in source order: top category, largest transaction (threshold
5000), frequent payee (count above 2), high volume (count above 50). -/
def _generate_insights (transactions : List Dict) (categories : List (Value × ℚ))
    (total_amount : ℚ) : Except PyErr (List String) :=
  if transactions.isEmpty then .ok []
  else
    let insights : List String :=
      match pyMax categories (fun p => p.2) with
      | none => []
      | some top =>
          let pct := if 0 < total_amount then top.2 / total_amount * 100 else 0
          ["Highest spending category: " ++ pyStr top.1 ++ " (" ++
            fmtFixed 1 pct ++ "% of total)."]
    let insights :=
      match pyMax transactions (fun t => amountQ t) with
      | none => insights
      | some max_txn =>
          if ¬ max_txn.isEmpty ∧ 5000 ≤ amountQ max_txn then
            insights ++ ["Largest transaction: ₹" ++ fmtFixed 2 (amountQ max_txn) ++
              " on " ++ pyStr (dictGet max_txn "date" (Value.strV "")) ++ " — " ++
              pyStr (dictGet max_txn "description" (Value.strV "unknown")) ++ "."]
          else insights
    match merchantLoop [] transactions with
    | .error e => .error e
    | .ok counts =>
        let insights :=
          match pyMax counts (fun p => p.2) with
          | none => insights
          | some mc =>
              if mc.1 ≠ "" ∧ 2 < mc.2 then
                insights ++ ["Frequent payee: " ++ mc.1 ++ " (" ++
                  toString mc.2 ++ " transactions)."]
              else insights
        let insights :=
          if 50 < transactions.length then
            insights ++ ["High transaction volume: " ++
              toString transactions.length ++ " transactions in selection."]
          else insights
        .ok insights

/-- The summary dict `summarize_results` returns, as a structure with one
field per key. -/
structure Summary where
  query : String
  total_transactions : ℕ
  total_amount : ℚ
  average_amount : ℚ
  category_breakdown : List (Value × ℚ)
  monthly_summary : List (String × ℚ)
  top_category : Option Value
  insights : List String
  deriving DecidableEq, Repr

/-- The early-return summary for an empty input (line 77). -/
def zeroSummary (query : String) : Summary :=
  { query := query, total_transactions := 0, total_amount := 0,
    average_amount := 0, category_breakdown := [], monthly_summary := [],
    top_category := none, insights := ["No transactions found."] }

/-- src/services/summarizerService.py, `summarize_results` (lines 71-116).
The second component is the post-call contents of the caller's transaction
list: the amount-coercion loop mutates the records in place, nothing after
it does.  `statistics.mean` computes the exact sum-over-count.
`TOP_N_CATEGORIES = 5` and `LARGE_TXN_THRESHOLD = 5000` are the module
constants (lines 9-10). -/
def summarize_results (transactions : List Dict) (query : String) :
    Except PyErr Summary × List Dict :=
  if transactions.isEmpty then (.ok (zeroSummary query), transactions)
  else
    match coerceAmounts transactions with
    | (.error e, txns) => (.error e, txns)
    | (.ok _, txns) =>
        let total_amount := (txns.map amountQ).sum
        let avg_amount := total_amount / (txns.length : ℚ)
        let categories := txns.foldl (fun acc t => addAmountV acc (catKey t) (amountQ t)) []
        let sorted_cats := sortCatsDesc categories
        let top_categories := (sorted_cats.take 5).map (fun p => (p.1, round2 p.2))
        match monthlyLoop [] txns with
        | .error e => (.error e, txns)
        | .ok monthly =>
            match _generate_insights txns categories total_amount with
            | .error e => (.error e, txns)
            | .ok insights =>
                (.ok { query := query,
                       total_transactions := txns.length,
                       total_amount := round2 total_amount,
                       average_amount := round2 avg_amount,
                       category_breakdown := top_categories,
                       monthly_summary := monthly.map (fun p => (p.1, round2 p.2)),
                       top_category := (sorted_cats.head?).map Prod.fst,
                       insights := insights }, txns)

/-- The canonical sentence of the empty record, used to steer the flaky
backend below. -/
def emptyRecordText : String :=
  "Unknown of ₹0 on Unknown for Unknown under Others category."

/-- A backend whose model returns a dimension-1 vector for the empty
record's sentence and a dimension-2 vector for every other text: encoding
the empty record succeeds, encoding any other record fails the dimension
check.  Used to exercise the failure path of `build_index`. -/
def svcFlaky : EmbeddingService :=
  { dimension := 1,
    encode := fun s => if s = emptyRecordText then [1] else [1, 1] }

/-- A record with no fields at all. -/
def txnEmpty : Dict := []

/-- A record whose canonical sentence differs from `emptyRecordText`. -/
def txnCoffee : Dict := [("description", Value.strV "coffee")]

/-- The service state after one successful `build_index` with a single
record: one stored vector, one record, ready. -/
def stAfterBuild : VSState := (build_index svcFlaky initVSState [txnEmpty]).2

/-- A backend that embeds every text to the unit vector of dimension 1. -/
def svcUnit : EmbeddingService := { dimension := 1, encode := fun _ => [1] }

/-- A demonstration transaction record. -/
def txnDemo : Dict :=
  [("amount", Value.intV 50), ("type", Value.strV "Debit"),
   ("date", Value.strV "2024-03-02"), ("description", Value.strV "Coffee Shop")]

/-- Ready one-record service state for the search claims. -/
def stDemo : VSState := (build_index svcUnit initVSState [txnDemo]).2

/-- The index stored in `stDemo`. -/
def idxDemo : FaissIndex := { dim := 1, vectors := [[1]] }

/-- The result `semantic_search` returns from `stDemo`: the stored record
plus its similarity score. -/
def resDemo : Dict :=
  [("amount", Value.intV 50), ("type", Value.strV "Debit"),
   ("date", Value.strV "2024-03-02"), ("description", Value.strV "Coffee Shop"),
   ("similarity_score", Value.floatV 1)]

/-- The per-key filter semantics the spec assigns to a returned record `t`
and a filter entry `(k, v)`: min_amount means amount at least `v`,
max_amount means amount at most `v`, type/category/user_id mean equality,
month means the date string starts with `v`, description_contains means a
case-insensitive substring of the description; any other key imposes
nothing. -/
def filterSem (t : Dict) (k : String) (v : Value) : Prop :=
  (k = "min_amount" → ∀ qa qv, toQ (dictGet t "amount" (Value.intV 0)) = some qa →
     toQ v = some qv → qv ≤ qa) ∧
  (k = "max_amount" → ∀ qa qv, toQ (dictGet t "amount" (Value.intV 0)) = some qa →
     toQ v = some qv → qa ≤ qv) ∧
  (k = "type" → pyEq (dictGet t "type" Value.noneV) v = true) ∧
  (k = "category" → pyEq (dictGet t "category" Value.noneV) v = true) ∧
  (k = "user_id" → pyEq (dictGet t "userId" Value.noneV) v = true) ∧
  (k = "month" → ∃ s d, v = Value.strV s ∧ dictGet t "date" (Value.strV "") = Value.strV d ∧
     d.startsWith s = true) ∧
  (k = "description_contains" → ∃ s d, v = Value.strV s ∧
     dictGet t "description" (Value.strV "") = Value.strV d ∧
     pyIn s.toLower d.toLower = true)

/-- Specification-side view of the collection loop: the candidates whose
record passes the filters, in candidate order, each with its score
attached. -/
def filteredCandidates (tx : List Dict) (filters : Option Dict)
    (cands : List (ℚ × ℕ)) : List Dict :=
  cands.filterMap (fun si =>
    match tx.get? si.2 with
    | none => none
    | some t =>
        match _passes_filters t filters with
        | .ok true => some (dictSet t "similarity_score" (Value.floatV si.1))
        | _ => none)

/-- If the key is absent, `d.get(k, default)` yields the default. -/
theorem dictGet_of_none {t : Dict} {k : String} (h : dictGetOpt t k = none)
    (d : Value) : dictGet t k d = d := by
  unfold dictGetOpt at h
  unfold dictGet
  cases hf : t.find? (fun p => p.1 == k) with
  | none => rfl
  | some p => rw [hf] at h; simp at h

/-- C3: the claim says `_safe_year_month` is total on strings, returning a
year-month or "unknown" and never raising.  The code contradicts its own
docstring ("If parsing fails, returns 'unknown'"): on the 7-character string
"2024-13" ISO parsing fails, the fallback guard checks `date_str[7]`, and
that index is out of bounds, so the call raises IndexError. -/
theorem safe_year_month_raises_on_2024_13 :
    _safe_year_month (Value.strV "2024-13") = Except.error PyErr.indexError := rfl

/-- C7: on the empty transaction list `summarize_results` returns — it does
not raise — the zero-valued summary: 0 transactions, 0.0 total, 0.0 average,
empty category and monthly breakdowns, no top category, and exactly the
single insight "No transactions found."; the input list is left unchanged. -/
theorem summarize_results_empty (q : String) :
    summarize_results [] q =
      (Except.ok { query := q, total_transactions := 0, total_amount := 0,
                   average_amount := 0, category_breakdown := [],
                   monthly_summary := [], top_category := none,
                   insights := ["No transactions found."] }, []) := rfl

/-- C1 counterexample: the vectors/records length invariant does not hold
for every operation sequence.  Starting from the ready state left by a
successful one-record build, a `build_index` call whose embedding generation
fails (dimension mismatch on the second record) leaves the old one-vector
index in place but has already replaced the transactions list with the new
two-record argument, so index size 1 differs from record count 2. -/
theorem index_size_invariant_broken :
    (build_index svcFlaky stAfterBuild [txnEmpty, txnCoffee]).1 =
      Except.error PyErr.valueError ∧
    ntotalOf (build_index svcFlaky stAfterBuild [txnEmpty, txnCoffee]).2 = 1 ∧
    ((build_index svcFlaky stAfterBuild [txnEmpty, txnCoffee]).2).transactions.length = 2 :=
  ⟨rfl, rfl, rfl⟩

/-- C2 counterexample: `build_index` is not atomic with respect to failure.
From the same ready state, the failing rebuild returns an error yet the
observable state is not the pre-call state: the transactions list has
already been replaced. -/
theorem build_index_not_atomic :
    (build_index svcFlaky stAfterBuild [txnEmpty, txnCoffee]).1 =
      Except.error PyErr.valueError ∧
    (build_index svcFlaky stAfterBuild [txnEmpty, txnCoffee]).2 ≠ stAfterBuild := by
  refine ⟨rfl, ?_⟩
  decide

/-- C2 amended: when `build_index` fails, the index and the ready flag are
unchanged — the old index keeps serving — but the transactions list has
already been replaced with the new argument (the line-25 assignment happens
before any validation). -/
theorem build_index_failure_state (svc : EmbeddingService) (st : VSState)
    (txns : List Dict) (e : PyErr) (st2 : VSState)
    (h : build_index svc st txns = (Except.error e, st2)) :
    st2.index = st.index ∧ st2.is_loaded = st.is_loaded ∧ st2.transactions = txns := by
  unfold build_index at h
  cases hg : generate_embeddings svc txns with
  | error e2 =>
      rw [hg] at h
      dsimp only at h
      simp only [Prod.mk.injEq] at h
      rw [← h.2]
      exact ⟨rfl, rfl, rfl⟩
  | ok embs =>
      rw [hg] at h
      dsimp only at h
      by_cases hl : embs.length ≠ txns.length
      · rw [if_pos hl] at h
        simp only [Prod.mk.injEq] at h
        rw [← h.2]
        exact ⟨rfl, rfl, rfl⟩
      · rw [if_neg hl] at h
        simp at h

/-- Witness for C2 amended: the concrete failing rebuild of the
counterexample keeps the index and flag and takes the new list. -/
theorem build_index_failure_state_witness :
    ((build_index svcFlaky stAfterBuild [txnEmpty, txnCoffee]).2).index =
      stAfterBuild.index ∧
    ((build_index svcFlaky stAfterBuild [txnEmpty, txnCoffee]).2).is_loaded =
      stAfterBuild.is_loaded ∧
    ((build_index svcFlaky stAfterBuild [txnEmpty, txnCoffee]).2).transactions =
      [txnEmpty, txnCoffee] :=
  build_index_failure_state svcFlaky stAfterBuild [txnEmpty, txnCoffee]
    PyErr.valueError _ rfl

/-- C1 amended: the vectors/records equality holds after every successful
`build_index`, and `load_index` restores it whenever the two artifacts were
written together by `save_index`; it is not maintained across a failed
`build_index` (which replaces the transactions list before validating), nor
by a `load_index` whose metadata sidecar is missing. -/
theorem index_size_invariant (svc : EmbeddingService) :
    (∀ st txns st2, build_index svc st txns = (Except.ok (), st2) →
       ntotalOf st2 = st2.transactions.length) ∧
    (∀ st fs fs2, ntotalOf st = st.transactions.length →
       save_index st fs = (Except.ok (), fs2) →
       ∀ st0 st2, load_index fs2 st0 = (Except.ok (), st2) →
         ntotalOf st2 = st2.transactions.length) := by
  constructor
  · intro st txns st2 h
    unfold build_index at h
    cases hg : generate_embeddings svc txns with
    | error e2 => rw [hg] at h; dsimp only at h; simp at h
    | ok embs =>
        rw [hg] at h
        dsimp only at h
        by_cases hl : embs.length ≠ txns.length
        · rw [if_pos hl] at h; simp at h
        · rw [if_neg hl] at h
          simp only [Prod.mk.injEq] at h
          rw [← h.2]
          simpa [ntotalOf] using (not_ne_iff.mp hl)
  · intro st fs fs2 hinv hs st0 st2 hl
    unfold save_index at hs
    cases hidx : st.index with
    | none => rw [hidx] at hs; simp at hs
    | some idx =>
        rw [hidx] at hs
        simp only [Prod.mk.injEq] at hs
        rw [← hs.2] at hl
        unfold load_index at hl
        dsimp only at hl
        simp only [Prod.mk.injEq] at hl
        rw [← hl.2]
        simpa [ntotalOf, hidx] using hinv

/-- Witness for C1 amended: the one-record build used by the counterexample
is a successful build, and the invariant holds in its resulting state. -/
theorem index_size_invariant_witness :
    ntotalOf stAfterBuild = stAfterBuild.transactions.length :=
  (index_size_invariant svcFlaky).1 initVSState [txnEmpty] stAfterBuild rfl

/-- C4 counterexample: the retrieval engine itself does not reject invalid
queries.  On a ready one-record state, `semantic_search` with the empty
query string returns a result list, not an InvalidQuery error — the 1–200
character and 1–200 `k` bounds are nowhere in the service. -/
theorem semantic_search_accepts_empty_query :
    (semantic_search svcUnit stDemo "" 5 none).1 = Except.ok [resDemo] := by
  with_unfolding_all rfl

/-- C4 amended: the length and range validation lives at the HTTP boundary:
the endpoint declarations reject any request whose query is empty or longer
than 200 characters, or whose top_k lies outside 1–200, with a validation
error before the handler (and hence the search) runs; `semantic_search`
itself performs no such validation. -/
theorem validate_search_params_rejects (q : String) (k : ℤ)
    (h : q.length = 0 ∨ 200 < q.length ∨ k < 1 ∨ 200 < k) :
    validate_search_params q (some k) = Except.error PyErr.validationError := by
  unfold validate_search_params
  by_cases hq : q.length < 1 ∨ 200 < q.length
  · rw [if_pos hq]
  · rw [if_neg hq]
    push_neg at hq
    have hk : k < 1 ∨ 200 < k := by
      rcases h with h0 | h200 | hk | hk
      · omega
      · exact absurd h200 (by omega)
      · exact Or.inl hk
      · exact Or.inr hk
    dsimp only
    rw [if_pos hk]

/-- Witness for C4 amended: the empty query with the default top_k of 5 is
rejected by the declared parameter constraints. -/
theorem validate_search_params_rejects_witness :
    validate_search_params "" (some 5) = Except.error PyErr.validationError :=
  validate_search_params_rejects "" 5 (Or.inl rfl)

/-- C8 counterexample: not every missing field degrades to "Unknown".  On
the record with no fields the canonicalizer renders the category slot as
"Others" (the code's default for `category`), the amount as 0, and omits
the method and user clauses; the sentence contains no "under Unknown
category" segment. -/
theorem create_embedding_text_category_default :
    create_embedding_text txnEmpty =
      "Unknown of ₹0 on Unknown for Unknown under Others category." ∧
    pyIn "under Unknown category" (create_embedding_text txnEmpty) = false := by
  exact ⟨rfl, by decide⟩

/-- C8 amended: the canonicalizer is total on dict records (the fallback
"Transaction {id-or-unknown}" branch is unreachable for dict input), and
the per-field defaults are: type, date and description degrade to
"Unknown", category to "Others", amount to 0, while a missing or empty
method or userId omits its clause; a record with none of the seven fields
renders to the fixed default sentence. -/
theorem create_embedding_text_defaults (t : Dict)
    (h1 : dictGetOpt t "type" = none) (h2 : dictGetOpt t "amount" = none)
    (h3 : dictGetOpt t "date" = none) (h4 : dictGetOpt t "description" = none)
    (h5 : dictGetOpt t "category" = none) (h6 : dictGetOpt t "method" = none)
    (h7 : dictGetOpt t "userId" = none) :
    create_embedding_text t =
      "Unknown of ₹0 on Unknown for Unknown under Others category." := by
  unfold create_embedding_text
  rw [dictGet_of_none h1, dictGet_of_none h2, dictGet_of_none h3,
      dictGet_of_none h4, dictGet_of_none h5, dictGet_of_none h6,
      dictGet_of_none h7]
  rfl

/-- Witness for C8 amended: the empty record has none of the fields and
renders to the default sentence. -/
theorem create_embedding_text_defaults_witness :
    create_embedding_text [] =
      "Unknown of ₹0 on Unknown for Unknown under Others category." :=
  create_embedding_text_defaults [] rfl rfl rfl rfl rfl rfl rfl

/-- The written-back amount of a record: `float(t.get('amount', 0))`
installed under the "amount" key, the record otherwise untouched; identity
when the coercion fails (it then raises before reaching this record). -/
def coercedRecord (t : Dict) : Dict :=
  match pyFloat (dictGet t "amount" (Value.intV 0)) with
  | .ok v => dictSet t "amount" (Value.floatV v)
  | .error _ => t

/-- When every amount coerces, the in-place loop succeeds and the list
contents afterwards are exactly the per-record coercions. -/
theorem coerceAmounts_ok (txns : List Dict)
    (h : ∀ t ∈ txns, (pyFloat (dictGet t "amount" (Value.intV 0))).isOk = true) :
    coerceAmounts txns = (Except.ok (), txns.map coercedRecord) := by
  induction txns with
  | nil => rfl
  | cons t ts ih =>
      have ht := h t (List.mem_cons_self t ts)
      unfold coerceAmounts
      cases hp : pyFloat (dictGet t "amount" (Value.intV 0)) with
      | error e => rw [hp] at ht; simp [Except.isOk, Except.toBool] at ht
      | ok v =>
          dsimp only
          rw [ih (fun x hx => h x (List.mem_cons_of_mem t hx))]
          have hc : coercedRecord t = dictSet t "amount" (Value.floatV v) := by
            unfold coercedRecord
            rw [hp]
          rw [List.map_cons, hc]

/-- C9 counterexample: `summarize_results` is not pure with respect to its
argument records.  Called on a list holding one record with no fields, it
writes the coerced amount back: afterwards the caller's record has gained
an "amount" key with value 0.0, so the record is not unchanged. -/
theorem summarize_results_mutates_records :
    (summarize_results [txnEmpty] "q").2 = [[("amount", Value.floatV 0)]] ∧
    [[("amount", Value.floatV 0)]] ≠ [txnEmpty] := by
  constructor
  · with_unfolding_all rfl
  · decide

/-- C9 amended: `summarize_results` performs no I/O and leaves the list
structure alone, but it mutates each record in place, replacing (or, when
absent, adding) its "amount" entry with the float-coerced value; every
other entry of every record is unchanged.  Stated for inputs whose amounts
all coerce — otherwise the loop raises partway, leaving a mutated
prefix. -/
theorem summarize_results_frame (txns : List Dict) (q : String)
    (h : ∀ t ∈ txns, (pyFloat (dictGet t "amount" (Value.intV 0))).isOk = true) :
    (summarize_results txns q).2 = txns.map coercedRecord := by
  unfold summarize_results
  by_cases he : txns.isEmpty
  · rw [if_pos he]
    rw [List.isEmpty_iff] at he
    rw [he]
    rfl
  · rw [if_neg he]
    rw [coerceAmounts_ok txns h]
    dsimp only
    cases hm : monthlyLoop [] (txns.map coercedRecord) with
    | error e => rfl
    | ok monthly =>
        cases hi : _generate_insights (txns.map coercedRecord)
            ((txns.map coercedRecord).foldl
              (fun acc t => addAmountV acc (catKey t) (amountQ t)) [])
            (((txns.map coercedRecord).map amountQ).sum) with
        | error e => rfl
        | ok insights => rfl

/-- Witness for C9 amended: on the one-record list whose amount coerces
(default 0), the post-call contents are the per-record coercions. -/
theorem summarize_results_frame_witness :
    (summarize_results [txnEmpty] "w").2 = [txnEmpty].map coercedRecord :=
  summarize_results_frame [txnEmpty] "w" (by decide)

/-- Setting one key leaves lookups of every other key unchanged:
the mapped-update branch. -/
theorem find?_set_map (t : Dict) (k1 k2 : String) (v : Value) (h : k1 ≠ k2) :
    (t.map (fun p => if p.1 == k2 then (k2, v) else p)).find? (fun p => p.1 == k1) =
      t.find? (fun p => p.1 == k1) := by
  induction t with
  | nil => rfl
  | cons p ps ih =>
      by_cases hp : p.1 = k2
      · have hhead : (if p.1 == k2 then (k2, v) else p) = (k2, v) := by simp [hp]
        simp only [List.map_cons, hhead]
        have e1 : List.find? (fun q => q.1 == k1)
            ((k2, v) :: ps.map (fun q => if q.1 == k2 then (k2, v) else q)) =
            List.find? (fun q => q.1 == k1)
              (ps.map (fun q => if q.1 == k2 then (k2, v) else q)) :=
          List.find?_cons_of_neg _ (by simp [Ne.symm h])
        have e2 : List.find? (fun q => q.1 == k1) (p :: ps) =
            List.find? (fun q => q.1 == k1) ps :=
          List.find?_cons_of_neg _ (by simp [hp, Ne.symm h])
        rw [e1, e2]
        exact ih
      · have hhead : (if p.1 == k2 then (k2, v) else p) = p := by simp [hp]
        simp only [List.map_cons, hhead]
        cases hq : p.1 == k1 with
        | true =>
            have e1 : List.find? (fun q => q.1 == k1)
                (p :: ps.map (fun q => if q.1 == k2 then (k2, v) else q)) = some p :=
              List.find?_cons_of_pos _ hq
            have e2 : List.find? (fun q => q.1 == k1) (p :: ps) = some p :=
              List.find?_cons_of_pos _ hq
            rw [e1, e2]
        | false =>
            have e1 : List.find? (fun q => q.1 == k1)
                (p :: ps.map (fun q => if q.1 == k2 then (k2, v) else q)) =
                List.find? (fun q => q.1 == k1)
                  (ps.map (fun q => if q.1 == k2 then (k2, v) else q)) :=
              List.find?_cons_of_neg _ (by simp [hq])
            have e2 : List.find? (fun q => q.1 == k1) (p :: ps) =
                List.find? (fun q => q.1 == k1) ps :=
              List.find?_cons_of_neg _ (by simp [hq])
            rw [e1, e2]
            exact ih

/-- Setting one key leaves lookups of every other key unchanged:
the appended-entry branch. -/
theorem find?_append_single (t : Dict) (k1 k2 : String) (v : Value) (h : k1 ≠ k2) :
    (t ++ [(k2, v)]).find? (fun p => p.1 == k1) = t.find? (fun p => p.1 == k1) := by
  rw [List.find?_append]
  have h2 : List.find? (fun p => p.1 == k1) [(k2, v)] = none := by
    simp [Ne.symm h]
  rw [h2]
  cases t.find? (fun p => p.1 == k1) <;> rfl

/-- `d.get(k1, default)` is unaffected by `d[k2] = v` for a different key. -/
theorem dictGet_dictSet_ne (t : Dict) (k1 k2 : String) (v d : Value) (h : k1 ≠ k2) :
    dictGet (dictSet t k2 v) k1 d = dictGet t k1 d := by
  unfold dictSet dictGet
  by_cases ha : t.any (fun p => p.1 == k2)
  · rw [if_pos ha, find?_set_map t k1 k2 v h]
  · rw [if_neg ha, find?_append_single t k1 k2 v h]

/-- Every record the collection loop adds beyond its accumulator is a
filter-passing stored record with the similarity score attached. -/
theorem searchLoop_mem (tx : List Dict) (filters : Option Dict) (k : ℕ) :
    ∀ (cands : List (ℚ × ℕ)) (acc rs : List Dict),
      searchLoop tx filters k cands acc = Except.ok rs →
      ∀ r ∈ rs, r ∈ acc ∨ ∃ i, ∃ (hi : i < tx.length), ∃ s : ℚ,
        _passes_filters (tx.get ⟨i, hi⟩) filters = Except.ok true ∧
        r = dictSet (tx.get ⟨i, hi⟩) "similarity_score" (Value.floatV s) := by
  intro cands
  induction cands with
  | nil =>
      intro acc rs heq r hr
      unfold searchLoop at heq
      simp only [Except.ok.injEq] at heq
      subst heq
      exact Or.inl hr
  | cons c rest ih =>
      obtain ⟨score, idx⟩ := c
      intro acc rs heq r hr
      unfold searchLoop at heq
      by_cases hlt : idx < tx.length
      · rw [dif_pos hlt] at heq
        dsimp only at heq
        cases hpf : _passes_filters (tx.get ⟨idx, hlt⟩) filters with
        | error e => rw [hpf] at heq; simp at heq
        | ok pass =>
            rw [hpf] at heq
            cases pass with
            | true =>
                simp only [eq_self_iff_true, if_true] at heq
                by_cases hk :
                    k ≤ (acc ++ [dictSet (tx.get ⟨idx, hlt⟩) "similarity_score"
                          (Value.floatV score)]).length
                · rw [if_pos hk] at heq
                  simp only [Except.ok.injEq] at heq
                  subst heq
                  rcases List.mem_append.mp hr with hin | hone
                  · exact Or.inl hin
                  · right
                    refine ⟨idx, hlt, score, hpf, ?_⟩
                    simpa using hone
                · rw [if_neg hk] at heq
                  rcases ih _ rs heq r hr with hin | hshape
                  · rcases List.mem_append.mp hin with hin2 | hone
                    · exact Or.inl hin2
                    · right
                      refine ⟨idx, hlt, score, hpf, ?_⟩
                      simpa using hone
                  · exact Or.inr hshape
            | false =>
                simp only [Bool.false_eq_true, if_false] at heq
                by_cases hk : k ≤ acc.length
                · rw [if_pos hk] at heq
                  simp only [Except.ok.injEq] at heq
                  subst heq
                  exact Or.inl hr
                · rw [if_neg hk] at heq
                  exact ih _ rs heq r hr
      · rw [dif_neg hlt] at heq
        exact ih _ rs heq r hr

/-- C10: `semantic_search` never mutates the service state: the post-call
state equals the pre-call state on every path (the stored record is copied
before the score is attached), and every returned record is a stored record
with the `similarity_score` key set. -/
theorem semantic_search_pure (svc : EmbeddingService) (st : VSState) (q : String)
    (k : ℕ) (f : Option Dict) (out : Except PyErr (List Dict)) (st2 : VSState)
    (h : semantic_search svc st q k f = (out, st2)) :
    st2 = st ∧ ∀ rs, out = Except.ok rs → ∀ r ∈ rs,
      ∃ i, ∃ (hi : i < st.transactions.length), ∃ s : ℚ,
        r = dictSet (st.transactions.get ⟨i, hi⟩) "similarity_score"
              (Value.floatV s) := by
  unfold semantic_search at h
  cases hidx : st.index with
  | none =>
      rw [hidx] at h
      dsimp only at h
      simp only [Prod.mk.injEq] at h
      refine ⟨h.2.symm, ?_⟩
      intro rs hout
      rw [← h.1] at hout
      simp at hout
  | some idx =>
      rw [hidx] at h
      cases hload : st.is_loaded with
      | false =>
          rw [hload] at h
          dsimp only at h
          simp only [Prod.mk.injEq] at h
          refine ⟨h.2.symm, ?_⟩
          intro rs hout
          rw [← h.1] at hout
          simp at hout
      | true =>
          rw [hload] at h
          dsimp only at h
          cases hqe : generate_query_embedding svc q with
          | error e =>
              rw [hqe] at h
              simp only [Prod.mk.injEq] at h
              refine ⟨h.2.symm, ?_⟩
              intro rs hout
              rw [← h.1] at hout
              simp at hout
          | ok qe =>
              rw [hqe] at h
              dsimp only at h
              cases hsl : searchLoop st.transactions f k
                  (faiss_search idx qe (min (k * 3) st.transactions.length)) [] with
              | error e =>
                  rw [hsl] at h
                  simp only [Prod.mk.injEq] at h
                  refine ⟨h.2.symm, ?_⟩
                  intro rs hout
                  rw [← h.1] at hout
                  simp at hout
              | ok results =>
                  rw [hsl] at h
                  simp only [Prod.mk.injEq] at h
                  refine ⟨h.2.symm, ?_⟩
                  intro rs hout
                  rw [← h.1] at hout
                  simp only [Except.ok.injEq] at hout
                  subst hout
                  intro r hr
                  rcases searchLoop_mem st.transactions f k _ [] results hsl r hr with
                    hin | ⟨i, hi, s, _, hshape⟩
                  · simp at hin
                  · exact ⟨i, hi, s, hshape⟩

/-- Witness for C10: the concrete search on the demonstration state leaves
the state unchanged. -/
theorem semantic_search_pure_witness :
    ((semantic_search svcUnit stDemo "x" 1 none).2 = stDemo) :=
  (semantic_search_pure svcUnit stDemo "x" 1 none
    (semantic_search svcUnit stDemo "x" 1 none).1
    (semantic_search svcUnit stDemo "x" 1 none).2 rfl).1

/-- A false numeric comparison gives the reverse non-strict order on the
rational views. -/
theorem pyLt_false_le (a b : Value) (qa qv : ℚ) (h : pyLt a b = Except.ok false)
    (ha : toQ a = some qa) (hb : toQ b = some qv) : qv ≤ qa := by
  cases a <;> cases b <;> simp [toQ] at ha hb <;> simp [pyLt] at h
  · subst ha; subst hb; exact_mod_cast h
  · subst ha; subst hb; exact_mod_cast h
  · subst ha; subst hb; exact_mod_cast h
  · subst ha; subst hb; exact_mod_cast h

/-- A filter pair that does not reject enforces its key's semantics. -/
theorem filterPair_sem (t : Dict) (k : String) (v : Value)
    (h : filterPair t k v = Except.ok true) : filterSem t k v := by
  unfold filterPair at h
  by_cases h1 : k = "min_amount"
  · rw [if_pos h1] at h
    cases hlt : pyLt (dictGet t "amount" (Value.intV 0)) v with
    | error e => rw [hlt] at h; simp at h
    | ok b =>
        rw [hlt] at h
        simp only [Except.ok.injEq, Bool.not_eq_eq_eq_not, Bool.not_true] at h
        subst h
        refine ⟨fun _ qa qv hqa hqv => pyLt_false_le _ _ qa qv hlt hqa hqv,
                fun hk => absurd (h1 ▸ hk) (by decide), fun hk => absurd (h1 ▸ hk) (by decide),
                fun hk => absurd (h1 ▸ hk) (by decide), fun hk => absurd (h1 ▸ hk) (by decide),
                fun hk => absurd (h1 ▸ hk) (by decide), fun hk => absurd (h1 ▸ hk) (by decide)⟩
  · rw [if_neg h1] at h
    by_cases h2 : k = "max_amount"
    · rw [if_pos h2] at h
      cases hlt : pyLt v (dictGet t "amount" (Value.intV 0)) with
      | error e => rw [hlt] at h; simp at h
      | ok b =>
          rw [hlt] at h
          simp only [Except.ok.injEq, Bool.not_eq_eq_eq_not, Bool.not_true] at h
          subst h
          refine ⟨fun hk => absurd (h2 ▸ hk) (by decide),
                  fun _ qa qv hqa hqv => pyLt_false_le _ _ qv qa hlt hqv hqa,
                  fun hk => absurd (h2 ▸ hk) (by decide), fun hk => absurd (h2 ▸ hk) (by decide),
                  fun hk => absurd (h2 ▸ hk) (by decide), fun hk => absurd (h2 ▸ hk) (by decide),
                  fun hk => absurd (h2 ▸ hk) (by decide)⟩
    · rw [if_neg h2] at h
      by_cases h3 : k = "type"
      · rw [if_pos h3] at h
        simp only [Except.ok.injEq] at h
        exact ⟨fun hk => absurd (h3 ▸ hk) (by decide), fun hk => absurd (h3 ▸ hk) (by decide),
               fun _ => h, fun hk => absurd (h3 ▸ hk) (by decide),
               fun hk => absurd (h3 ▸ hk) (by decide), fun hk => absurd (h3 ▸ hk) (by decide),
               fun hk => absurd (h3 ▸ hk) (by decide)⟩
      · rw [if_neg h3] at h
        by_cases h4 : k = "category"
        · rw [if_pos h4] at h
          simp only [Except.ok.injEq] at h
          exact ⟨fun hk => absurd (h4 ▸ hk) (by decide), fun hk => absurd (h4 ▸ hk) (by decide),
                 fun hk => absurd (h4 ▸ hk) (by decide), fun _ => h,
                 fun hk => absurd (h4 ▸ hk) (by decide), fun hk => absurd (h4 ▸ hk) (by decide),
                 fun hk => absurd (h4 ▸ hk) (by decide)⟩
        · rw [if_neg h4] at h
          by_cases h5 : k = "user_id"
          · rw [if_pos h5] at h
            simp only [Except.ok.injEq] at h
            exact ⟨fun hk => absurd (h5 ▸ hk) (by decide), fun hk => absurd (h5 ▸ hk) (by decide),
                   fun hk => absurd (h5 ▸ hk) (by decide), fun hk => absurd (h5 ▸ hk) (by decide),
                   fun _ => h, fun hk => absurd (h5 ▸ hk) (by decide),
                   fun hk => absurd (h5 ▸ hk) (by decide)⟩
          · rw [if_neg h5] at h
            by_cases h6 : k = "month"
            · rw [if_pos h6] at h
              refine ⟨fun hk => absurd (h6 ▸ hk) (by decide), fun hk => absurd (h6 ▸ hk) (by decide),
                      fun hk => absurd (h6 ▸ hk) (by decide), fun hk => absurd (h6 ▸ hk) (by decide),
                      fun hk => absurd (h6 ▸ hk) (by decide), fun _ => ?_,
                      fun hk => absurd (h6 ▸ hk) (by decide)⟩
              cases hd : dictGet t "date" (Value.strV "") with
              | strV d =>
                  rw [hd] at h
                  cases hv : v with
                  | strV s =>
                      rw [hv] at h
                      simp only [Except.ok.injEq] at h
                      exact ⟨s, d, rfl, rfl, h⟩
                  | intV n => rw [hv] at h; simp at h
                  | floatV q => rw [hv] at h; simp at h
                  | noneV => rw [hv] at h; simp at h
              | intV n => rw [hd] at h; simp at h
              | floatV q => rw [hd] at h; simp at h
              | noneV => rw [hd] at h; simp at h
            · rw [if_neg h6] at h
              by_cases h7 : k = "description_contains"
              · rw [if_pos h7] at h
                refine ⟨fun hk => absurd (h7 ▸ hk) (by decide), fun hk => absurd (h7 ▸ hk) (by decide),
                        fun hk => absurd (h7 ▸ hk) (by decide), fun hk => absurd (h7 ▸ hk) (by decide),
                        fun hk => absurd (h7 ▸ hk) (by decide), fun hk => absurd (h7 ▸ hk) (by decide),
                        fun _ => ?_⟩
                cases hv : v with
                | strV s =>
                    rw [hv] at h
                    cases hd : dictGet t "description" (Value.strV "") with
                    | strV d =>
                        rw [hd] at h
                        simp only [Except.ok.injEq] at h
                        exact ⟨s, d, rfl, rfl, h⟩
                    | intV n => rw [hd] at h; simp at h
                    | floatV q => rw [hd] at h; simp at h
                    | noneV => rw [hd] at h; simp at h
                | intV n => rw [hv] at h; simp at h
                | floatV q => rw [hv] at h; simp at h
                | noneV => rw [hv] at h; simp at h
              · exact ⟨fun hk => absurd hk h1, fun hk => absurd hk h2, fun hk => absurd hk h3,
                       fun hk => absurd hk h4, fun hk => absurd hk h5, fun hk => absurd hk h6,
                       fun hk => absurd hk h7⟩

/-- A non-rejecting run of the filter loop means every pair was
non-rejecting: the elif chain is a conjunction. -/
theorem filtersLoop_all (t : Dict) :
    ∀ l : List (String × Value), filtersLoop t l = Except.ok true →
      ∀ kv ∈ l, filterPair t kv.1 kv.2 = Except.ok true := by
  intro l
  induction l with
  | nil => intro _ kv hkv; simp at hkv
  | cons p rest ih =>
      obtain ⟨k, v⟩ := p
      intro h kv hkv
      unfold filtersLoop at h
      cases hp : filterPair t k v with
      | error e => rw [hp] at h; simp at h
      | ok b =>
          rw [hp] at h
          cases b with
          | false => simp at h
          | true =>
              rcases List.mem_cons.mp hkv with hkv1 | hkv2
              · subst hkv1; exact hp
              · exact ih h kv hkv2

/-- `_passes_filters` succeeding with True means every supplied pair is
satisfied. -/
theorem passes_filters_all (t : Dict) (f : Dict)
    (h : _passes_filters t (some f) = Except.ok true) :
    ∀ kv ∈ f, filterPair t kv.1 kv.2 = Except.ok true := by
  unfold _passes_filters at h
  by_cases he : f.isEmpty
  · intro kv hkv
    rw [List.isEmpty_iff] at he
    subst he
    simp at hkv
  · dsimp only at h
    rw [if_neg he] at h
    exact filtersLoop_all t f h

/-- Attaching the similarity score does not disturb any of the filtered
fields, so the key semantics transfer from the stored record to the
returned one. -/
theorem filterSem_set_score (t : Dict) (k : String) (v : Value) (s : ℚ)
    (h : filterSem t k v) :
    filterSem (dictSet t "similarity_score" (Value.floatV s)) k v := by
  unfold filterSem at h ⊢
  rw [dictGet_dictSet_ne t "amount" "similarity_score" (Value.floatV s) (Value.intV 0)
        (by decide),
      dictGet_dictSet_ne t "type" "similarity_score" (Value.floatV s) Value.noneV
        (by decide),
      dictGet_dictSet_ne t "category" "similarity_score" (Value.floatV s) Value.noneV
        (by decide),
      dictGet_dictSet_ne t "userId" "similarity_score" (Value.floatV s) Value.noneV
        (by decide),
      dictGet_dictSet_ne t "date" "similarity_score" (Value.floatV s) (Value.strV "")
        (by decide),
      dictGet_dictSet_ne t "description" "similarity_score" (Value.floatV s) (Value.strV "")
        (by decide)]
  exact h

/-- C5: filters are conjunctive with the documented key semantics — every
record a filtered `semantic_search` returns satisfies the semantics of
every pair of the filter dict: min_amount is a lower bound on the amount,
max_amount an upper bound, type/category/user_id are equalities, month is
a date-string prefix, description_contains a case-insensitive substring;
keys absent from the dict impose nothing (only the supplied pairs are
quantified over). -/
theorem search_results_pass_filters (svc : EmbeddingService) (st : VSState)
    (q : String) (k : ℕ) (f : Dict) (rs : List Dict) (st2 : VSState)
    (h : semantic_search svc st q k (some f) = (Except.ok rs, st2)) :
    ∀ r ∈ rs, ∀ kv ∈ f, filterSem r kv.1 kv.2 := by
  intro r hr kv hkv
  unfold semantic_search at h
  cases hidx : st.index with
  | none => rw [hidx] at h; dsimp only at h; simp at h
  | some idx =>
      rw [hidx] at h
      cases hload : st.is_loaded with
      | false => rw [hload] at h; dsimp only at h; simp at h
      | true =>
          rw [hload] at h
          dsimp only at h
          cases hqe : generate_query_embedding svc q with
          | error e => rw [hqe] at h; simp at h
          | ok qe =>
              rw [hqe] at h
              dsimp only at h
              cases hsl : searchLoop st.transactions (some f) k
                  (faiss_search idx qe (min (k * 3) st.transactions.length)) [] with
              | error e => rw [hsl] at h; simp at h
              | ok results =>
                  rw [hsl] at h
                  simp only [Prod.mk.injEq, Except.ok.injEq] at h
                  rw [← h.1] at hr
                  rcases searchLoop_mem st.transactions (some f) k _ [] results hsl r hr with
                    hin | ⟨i, hi, s, hpass, hshape⟩
                  · simp at hin
                  · subst hshape
                    exact filterSem_set_score _ kv.1 kv.2 s
                      (filterPair_sem _ kv.1 kv.2 (passes_filters_all _ f hpass kv hkv))

/-- Witness for C5: on the demonstration state with a min_amount filter of
10, the returned record satisfies the min_amount semantics. -/
theorem search_results_pass_filters_witness :
    filterSem resDemo "min_amount" (Value.intV 10) :=
  search_results_pass_filters svcUnit stDemo "x" 1 [("min_amount", Value.intV 10)]
    [resDemo] stDemo (by with_unfolding_all rfl) resDemo (by simp)
    ("min_amount", Value.intV 10) (by simp)

/-- Inserting into the score-sorted list grows it by one. -/
theorem insertDesc_length (x : ℚ × ℕ) :
    ∀ l : List (ℚ × ℕ), (insertDesc x l).length = l.length + 1 := by
  intro l
  induction l with
  | nil => rfl
  | cons y ys ih =>
      unfold insertDesc
      by_cases hc : x.1 > y.1 ∨ (x.1 = y.1 ∧ x.2 < y.2)
      · rw [if_pos hc]; rfl
      · rw [if_neg hc]
        simp [ih]

/-- Sorting preserves length. -/
theorem sortDesc_length (l : List (ℚ × ℕ)) : (sortDesc l).length = l.length := by
  unfold sortDesc
  induction l with
  | nil => rfl
  | cons y ys ih =>
      simp only [List.foldr_cons, insertDesc_length, ih, List.length_cons]

/-- `index.search` returns exactly `min(k, ntotal)` candidates. -/
theorem faiss_search_length (idx : FaissIndex) (q : List ℚ) (k : ℕ) :
    (faiss_search idx q k).length = min k idx.vectors.length := by
  unfold faiss_search
  rw [List.length_take, sortDesc_length, List.length_map, List.enum_length]

/-- The collection loop computes the accumulator followed by the filtered
candidates, truncated as soon as `top_k` results are collected — provided
the accumulator is still short of `top_k` and no filter evaluation
raises. -/
theorem searchLoop_take (tx : List Dict) (filters : Option Dict) (k : ℕ)
    (hf : ∀ t ∈ tx, ∃ b, _passes_filters t filters = Except.ok b) :
    ∀ (cands : List (ℚ × ℕ)) (acc : List Dict), acc.length < k →
      searchLoop tx filters k cands acc =
        Except.ok (acc ++ (filteredCandidates tx filters cands).take (k - acc.length)) := by
  intro cands
  induction cands with
  | nil =>
      intro acc hacc
      simp [searchLoop, filteredCandidates]
  | cons c rest ih =>
      obtain ⟨score, idx⟩ := c
      intro acc hacc
      unfold searchLoop
      by_cases hlt : idx < tx.length
      · rw [dif_pos hlt]
        dsimp only
        obtain ⟨b, hb⟩ := hf (tx.get ⟨idx, hlt⟩) (tx.get_mem _ _)
        rw [hb]
        have hget : tx.get? idx = some (tx.get ⟨idx, hlt⟩) := List.get?_eq_get hlt
        cases b with
        | true =>
            have hfc : filteredCandidates tx filters ((score, idx) :: rest) =
                dictSet (tx.get ⟨idx, hlt⟩) "similarity_score" (Value.floatV score) ::
                  filteredCandidates tx filters rest := by
              unfold filteredCandidates
              rw [List.filterMap_cons]
              dsimp only
              rw [hget]
              dsimp only
              rw [hb]
            simp only [eq_self_iff_true, if_true]
            by_cases hk : k ≤ (acc ++ [dictSet (tx.get ⟨idx, hlt⟩) "similarity_score"
                  (Value.floatV score)]).length
            · rw [if_pos hk]
              have hk1 : k - acc.length = 1 := by
                simp only [List.length_append, List.length_cons, List.length_nil] at hk
                omega
              rw [hfc, hk1, List.take_succ_cons, List.take_zero]
            · rw [if_neg hk]
              have hlen2 : (acc ++ [dictSet (tx.get ⟨idx, hlt⟩) "similarity_score"
                  (Value.floatV score)]).length < k := by
                simp only [List.length_append, List.length_cons, List.length_nil] at hk ⊢
                omega
              rw [ih _ hlen2]
              have hsub : k - acc.length = (k - (acc ++ [dictSet (tx.get ⟨idx, hlt⟩)
                  "similarity_score" (Value.floatV score)]).length) + 1 := by
                simp only [List.length_append, List.length_cons, List.length_nil]
                omega
              rw [hfc, hsub, List.take_succ_cons]
              simp
        | false =>
            have hfc : filteredCandidates tx filters ((score, idx) :: rest) =
                filteredCandidates tx filters rest := by
              unfold filteredCandidates
              rw [List.filterMap_cons]
              dsimp only
              rw [hget]
              dsimp only
              rw [hb]
            simp only [Bool.false_eq_true, if_false]
            by_cases hk : k ≤ acc.length
            · omega
            · rw [if_neg hk, ih _ hacc, hfc]
      · rw [dif_neg hlt]
        have hget : tx.get? idx = none := by
          rw [List.get?_eq_none]
          omega
        have hfc : filteredCandidates tx filters ((score, idx) :: rest) =
            filteredCandidates tx filters rest := by
          unfold filteredCandidates
          rw [List.filterMap_cons]
          dsimp only
          rw [hget]
        rw [ih _ hacc, hfc]

/-- C6: on a ready, consistent index with N records, `semantic_search`
requests exactly `min(top_k * 3, N)` candidates from the FAISS index —
and gets exactly that many back — then returns the filter-passing
candidates in candidate order, truncated to at most `top_k`; when fewer
than `top_k` pass, the smaller set is returned without an error.  The
hypotheses require the query embedding to succeed and filter evaluation
not to raise. -/
theorem semantic_search_overfetch (svc : EmbeddingService) (st : VSState)
    (q : String) (k : ℕ) (filters : Option Dict) (idx : FaissIndex) (qe : List ℚ)
    (hload : st.is_loaded = true) (hidx : st.index = some idx)
    (hlen : idx.vectors.length = st.transactions.length)
    (hqe : generate_query_embedding svc q = Except.ok qe)
    (hf : ∀ t ∈ st.transactions, ∃ b, _passes_filters t filters = Except.ok b) :
    (faiss_search idx qe (min (k * 3) st.transactions.length)).length =
      min (k * 3) st.transactions.length ∧
    (semantic_search svc st q k filters).1 =
      Except.ok ((filteredCandidates st.transactions filters
        (faiss_search idx qe (min (k * 3) st.transactions.length))).take k) ∧
    ((filteredCandidates st.transactions filters
        (faiss_search idx qe (min (k * 3) st.transactions.length))).take k).length ≤ k := by
  have hcount : (faiss_search idx qe (min (k * 3) st.transactions.length)).length =
      min (k * 3) st.transactions.length := by
    rw [faiss_search_length, hlen]
    exact Nat.min_eq_left (Nat.min_le_right _ _)
  refine ⟨hcount, ?_, ?_⟩
  · unfold semantic_search
    rw [hidx, hload]
    dsimp only
    rw [hqe]
    dsimp only
    rcases Nat.eq_zero_or_pos k with hk0 | hkpos
    · subst hk0
      have hmin : min (0 * 3) st.transactions.length = 0 := by simp
      have hcand : faiss_search idx qe (min (0 * 3) st.transactions.length) = [] :=
        List.length_eq_zero.mp (hcount.trans hmin)
      rw [hcand]
      unfold searchLoop
      rfl
    · rw [searchLoop_take st.transactions filters k hf _ [] (by simpa using hkpos)]
      simp
  · rw [List.length_take]
    exact Nat.min_le_left _ _

/-- Witness for C6: on the one-record demonstration state with `top_k = 1`
and no filters, the overfetch count is `min(3, 1) = 1` and the returned
set is the single filtered candidate. -/
theorem semantic_search_overfetch_witness :
    (faiss_search idxDemo [1] (min (1 * 3) stDemo.transactions.length)).length =
      min (1 * 3) stDemo.transactions.length ∧
    (semantic_search svcUnit stDemo "x" 1 none).1 =
      Except.ok ((filteredCandidates stDemo.transactions none
        (faiss_search idxDemo [1] (min (1 * 3) stDemo.transactions.length))).take 1) ∧
    ((filteredCandidates stDemo.transactions none
        (faiss_search idxDemo [1] (min (1 * 3) stDemo.transactions.length))).take 1).length ≤ 1 :=
  semantic_search_overfetch svcUnit stDemo "x" 1 none idxDemo [1] rfl rfl rfl rfl
    (fun _ _ => ⟨true, rfl⟩)
